import Mathlib

/-!
Shallow embedding of the `wallet` package (wallet.go) of go-eth2-wallet:
a dispatch facade that creates, opens, imports and enumerates Ethereum 2
wallets whose concrete variant ("nd" or "hd") is selected by a type tag
embedded in the persisted payload.

External collaborators (encoding/json, go-ecodec, the nd and hd variant
packages, the store) are modelled as an environment of abstract functions,
since the package treats them as black boxes.  Byte slices are lists of
naturals; a Go `(value, error)` pair is a `GoResult`, which has a third
constructor for a runtime panic so that crash-freedom is expressible.
-/

/-- Byte slices (`[]byte`) are modelled as lists of naturals. -/
abbrev Bytes := List Nat

/-- Errors: either an opaque error produced by an external collaborator,
identified by a numeric code, or a message error built with `fmt.Errorf`,
carrying its formatted string. -/
inductive GoError where
  | external (code : Nat)
  | msg (s : String)
deriving DecidableEq

/-- Outcome of a Go function returning `(value, error)`.  `crash` models a
runtime panic (such as a nil-pointer dereference), which is distinct from
returning an error. -/
inductive GoResult (α : Type) where
  | ok (a : α)
  | err (e : GoError)
  | crash (s : String)
deriving DecidableEq

/-- Convert a collaborator's `(value, error)` outcome into a `GoResult`;
collaborators meet their contracts and never panic. -/
def ofExcept {α : Type} : Except GoError α → GoResult α
  | .ok a => .ok a
  | .error e => .err e

/-- The `types.Store` collaborator: byte persistence keyed by wallet name,
plus a finite enumeration of all stored payloads in yield order
(`RetrieveWallets`, modelled as the list of items its channel yields). -/
structure Store where
  retrieveWallet : String → Except GoError Bytes
  retrieveWallets : List Bytes

/-- The `types.Encryptor` collaborator.  The dispatch layer never calls it
directly; it only passes the reference through, so only an identity is
modelled. -/
structure Encryptor where
  id : Nat
deriving DecidableEq

/-- The envelope `walletInfo` struct: `{uuid, name, type}`.  Fields that are
absent from the JSON keep Go's zero value (the empty string for `type_`). -/
structure walletInfo where
  id : String
  name : String
  type_ : String
deriving DecidableEq

/-- The external collaborators used by the package, for wallets of type `W`:
`ecodec.Decrypt`, the two `json.Unmarshal` target shapes, and the six
variant entry points.  `unmarshalExt` unmarshals into
`struct { Wallet *walletInfo }`; a plaintext that is valid JSON but has no
(or a null) `wallet` field yields `Except.ok none` — the `Wallet` pointer
stays nil, exactly as Go's encoding/json leaves it. -/
structure Env (W : Type) where
  decrypt : Bytes → Bytes → Except GoError Bytes
  unmarshalExt : Bytes → Except GoError (Option walletInfo)
  unmarshalInfo : Bytes → Except GoError walletInfo
  ndImport : Bytes → Bytes → Store → Encryptor → Except GoError W
  hdImport : Bytes → Bytes → Store → Encryptor → Except GoError W
  ndCreateWallet : String → Store → Encryptor → Except GoError W
  hdCreateWallet : String → Bytes → Store → Encryptor → Except GoError W
  ndDeserializeWallet : Bytes → Store → Encryptor → Except GoError W
  hdDeserializeWallet : Bytes → Store → Encryptor → Except GoError W

/-- The `walletOptions` struct of wallet.go. -/
structure walletOptions where
  store : Store
  encryptor : Encryptor
  walletType : String
  passphrase : Bytes

/-- The four `Option` values the package defines (`WithStore`,
`WithEncryptor`, `WithPassphrase`, `WithType`); each wraps the one-field
mutation its source constructor installs. -/
inductive WOption where
  | WithStore (store : Store)
  | WithEncryptor (encryptor : Encryptor)
  | WithPassphrase (passphrase : Bytes)
  | WithType (walletType : String)

/-- The `apply` method: the mutation each option performs on the options
struct. -/
def WOption.apply (o : WOption) (opts : walletOptions) : walletOptions :=
  match o with
  | .WithStore s => { opts with store := s }
  | .WithEncryptor e => { opts with encryptor := e }
  | .WithPassphrase p => { opts with passphrase := p }
  | .WithType t => { opts with walletType := t }

/-- The option-application loop `for _, o := range opts { o.apply(&options) }`. -/
def applyOpts (base : walletOptions) (opts : List WOption) : walletOptions :=
  opts.foldl (fun acc o => o.apply acc) base

/-- Shared deserialization path `walletFromBytes`: unmarshal the envelope,
switch on its `Type` tag, delegate to the matching variant's
`DeserializeWallet` with the full original bytes and the package-level
store and encryptor. -/
def walletFromBytes {W : Type} (env : Env W) (store : Store) (encryptor : Encryptor)
    (data : Bytes) : GoResult W :=
  match env.unmarshalInfo data with
  | .error e => .err e
  | .ok info =>
    match info.type_ with
    | "nd" | "non-deterministic" => ofExcept (env.ndDeserializeWallet data store encryptor)
    | "hd" | "hierarchical deterministic" => ofExcept (env.hdDeserializeWallet data store encryptor)
    | t => .err (.msg ("unsupported wallet type \"" ++ t ++ "\""))

/-- `ImportWallet`: decrypt the blob, unmarshal the plaintext into
`struct { Wallet *walletInfo }`, then switch on `ext.Wallet.Type`.  When the
`Wallet` pointer is nil (plaintext parsed but had no `wallet` field) the
field access `ext.Wallet.Type` is a nil-pointer dereference: a runtime
panic, modelled by `crash`. -/
def ImportWallet {W : Type} (env : Env W) (store : Store) (encryptor : Encryptor)
    (encryptedData : Bytes) (passphrase : Bytes) : GoResult W :=
  match env.decrypt encryptedData passphrase with
  | .error e => .err e
  | .ok data =>
    match env.unmarshalExt data with
    | .error e => .err e
    | .ok none => .crash "invalid memory address or nil pointer dereference"
    | .ok (some w) =>
      match w.type_ with
      | "nd" | "non-deterministic" => ofExcept (env.ndImport encryptedData passphrase store encryptor)
      | "hd" | "hierarchical deterministic" => ofExcept (env.hdImport encryptedData passphrase store encryptor)
      | t => .err (.msg ("unsupported wallet type \"" ++ t ++ "\""))

/-- `OpenWallet`: folds the options onto the package-level defaults, then
retrieves the bytes through the package-level `store` variable — not
`options.store` — and deserializes through `walletFromBytes`, which likewise
uses the package-level store and encryptor.  The resolved `options` value is
never read, exactly as in the source. -/
def OpenWallet {W : Type} (env : Env W) (store : Store) (encryptor : Encryptor)
    (name : String) (opts : List WOption) : GoResult W :=
  let _options := applyOpts
    { store := store, encryptor := encryptor, walletType := "", passphrase := [] } opts
  match store.retrieveWallet name with
  | .error e => .err e
  | .ok data => walletFromBytes env store encryptor data

/-- The base options `CreateWallet` starts from: package-level store and
encryptor, nil passphrase, wallet type "nd". -/
def createBase (store : Store) (encryptor : Encryptor) : walletOptions :=
  { store := store, encryptor := encryptor, passphrase := [], walletType := "nd" }

/-- The effective options a `CreateWallet` call resolves. -/
def createOptions (store : Store) (encryptor : Encryptor) (opts : List WOption) :
    walletOptions :=
  applyOpts (createBase store encryptor) opts

/-- `CreateWallet`: folds the options onto creation defaults, then switches
on the effective `walletType`: the nd variant receives name, store and
encryptor only; the hd variant additionally receives the effective
passphrase; any other tag is an `unhandled wallet type` error. -/
def CreateWallet {W : Type} (env : Env W) (store : Store) (encryptor : Encryptor)
    (name : String) (opts : List WOption) : GoResult W :=
  let options := createOptions store encryptor opts
  match options.walletType with
  | "nd" | "non-deterministic" => ofExcept (env.ndCreateWallet name options.store options.encryptor)
  | "hd" | "hierarchical deterministic" =>
      ofExcept (env.hdCreateWallet name options.passphrase options.store options.encryptor)
  | t => .err (.msg ("unhandled wallet type \"" ++ t ++ "\""))

/-- The body of the producer goroutine in `Wallets`: walk the store's yield
sequence, deserialize each payload, send the successes in order, skip the
failures, close the channel at the end.  The value is the full sequence of
sends the producer attempts. -/
def walletsLoop {W : Type} (env : Env W) (store : Store) (encryptor : Encryptor) :
    List Bytes → List W
  | [] => []
  | data :: rest =>
    match walletFromBytes env store encryptor data with
    | .ok w => w :: walletsLoop env store encryptor rest
    | _ => walletsLoop env store encryptor rest

/-- `Wallets`: the sequence of wallets the producer goroutine sends on the
returned channel, in the store's yield order. -/
def Wallets {W : Type} (env : Env W) (store : Store) (encryptor : Encryptor) : List W :=
  walletsLoop env store encryptor store.retrieveWallets

/-- Channel-send semantics for the producer goroutine of `Wallets`: given the
wallets still to send, the free slots in the channel buffer, and the number
of receives the consumer will still perform, decide whether the producer
reaches `close(ch)`.  A send into a free slot succeeds; when the buffer is
full, a pending receive frees one slot; when the buffer is full and the
consumer has abandoned the channel, the send blocks forever. -/
def sendAll {W : Type} : List W → Nat → Nat → Bool
  | [], _, _ => true
  | _ :: ws, bf + 1, r => sendAll ws bf r
  | w :: ws, 0, r + 1 => sendAll (w :: ws) 1 r
  | _ :: _, 0, 0 => false
termination_by ws _ r => (ws.length, r)

/-- Whether the producer goroutine spawned by `Wallets` terminates when the
consumer reads exactly `consumed` items and then abandons the channel; the
channel buffer holds 1024 entries (`make(chan types.Wallet, 1024)`). -/
def producerTerminates {W : Type} (env : Env W) (store : Store) (encryptor : Encryptor)
    (consumed : Nat) : Bool :=
  sendAll (Wallets env store encryptor) 1024 consumed

/-- Canonical variant identifiers. -/
inductive Variant where
  | ND
  | HD
deriving DecidableEq

/-- The variant tag table of the specification: the accepted tag spellings
and the variant each resolves to; every other tag is unregistered. -/
def resolveVariant : String → Option Variant
  | "nd" | "non-deterministic" => some .ND
  | "hd" | "hierarchical deterministic" => some .HD
  | _ => none

/-- The `Import` entry point of a variant. -/
def Variant.importFn {W : Type} : Variant → Env W → Bytes → Bytes → Store → Encryptor →
    Except GoError W
  | .ND, env => env.ndImport
  | .HD, env => env.hdImport

/-- The `DeserializeWallet` entry point of a variant. -/
def Variant.deserializeFn {W : Type} : Variant → Env W → Bytes → Store → Encryptor →
    Except GoError W
  | .ND, env => env.ndDeserializeWallet
  | .HD, env => env.hdDeserializeWallet

/-- The `CreateWallet` entry point of a variant; the nd variant takes no
passphrase, so it ignores that argument. -/
def Variant.createFn {W : Type} : Variant → Env W → String → Bytes → Store → Encryptor →
    Except GoError W
  | .ND, env, name, _, store, encryptor => env.ndCreateWallet name store encryptor
  | .HD, env, name, pass, store, encryptor => env.hdCreateWallet name pass store encryptor

/-- A dispatch-layer error message that contains the offending tag verbatim. -/
def carriesTag (e : GoError) (t : String) : Prop :=
  ∃ pre post, e = .msg (pre ++ t ++ post)

/-- The value an option writes to the `store` field, if it targets it. -/
def storeVal : WOption → Option Store
  | .WithStore s => some s
  | _ => none

/-- The value an option writes to the `encryptor` field, if it targets it. -/
def encryptorVal : WOption → Option Encryptor
  | .WithEncryptor e => some e
  | _ => none

/-- The value an option writes to the `passphrase` field, if it targets it. -/
def passphraseVal : WOption → Option Bytes
  | .WithPassphrase p => some p
  | _ => none

/-- The value an option writes to the `walletType` field, if it targets it. -/
def walletTypeVal : WOption → Option String
  | .WithType t => some t
  | _ => none

/-- The value written by the last option in the list that targets a given
field, if any option does. -/
def lastVal {α : Type} (f : WOption → Option α) : List WOption → Option α
  | [] => none
  | o :: rest =>
    match lastVal f rest with
    | some v => some v
    | none => f o

/-- An envelope with the given type tag and empty id and name, as produced
for a payload that carries only a `type` field. -/
def infoOf (t : String) : walletInfo := { id := "", name := "", type_ := t }

/-- A concrete store whose lookups all fail; used to exercise the dispatch
layer on concrete inputs. -/
def storeW : Store :=
  { retrieveWallet := fun _ => .error (.external 0), retrieveWallets := [] }

/-- A concrete encryptor reference. -/
def encW : Encryptor := { id := 0 }

/-- A concrete collaborator environment over `Nat` wallets.  Payload `[0]`
fails decryption; all other blobs decrypt to themselves.  Plaintext `[1]` is
not valid JSON; `[2]` is valid JSON with no `wallet` field (nil envelope
pointer); `[3]`, `[4]`, `[5]`, `[6]` parse to envelopes of type `"nd"`,
`"hd"` (export form `"hierarchical deterministic"`), `"keystore"` and `""`
respectively.  Each variant entry point returns a distinct wallet value so
that dispatch outcomes are distinguishable; the hd create result additionally
records the length of the passphrase it received. -/
def envW : Env Nat where
  decrypt := fun data _ =>
    match data with
    | [0] => .error (.external 10)
    | d => .ok d
  unmarshalExt := fun data =>
    match data with
    | [2] => .ok none
    | [3] => .ok (some (infoOf "nd"))
    | [4] => .ok (some (infoOf "hierarchical deterministic"))
    | [5] => .ok (some (infoOf "keystore"))
    | _ => .error (.external 11)
  unmarshalInfo := fun data =>
    match data with
    | [3] => .ok (infoOf "nd")
    | [4] => .ok (infoOf "hd")
    | [5] => .ok (infoOf "keystore")
    | [6] => .ok (infoOf "")
    | _ => .error (.external 12)
  ndImport := fun _ _ _ _ => .ok 1
  hdImport := fun _ _ _ _ => .ok 2
  ndCreateWallet := fun _ _ _ => .ok 3
  hdCreateWallet := fun _ pass _ _ => .ok (100 + pass.length)
  ndDeserializeWallet := fun _ _ _ => .ok 5
  hdDeserializeWallet := fun _ _ _ => .ok 6

/-- A concrete process-wide default store that does not contain wallet "w". -/
def defaultStoreW : Store :=
  { retrieveWallet := fun _ => .error (.external 7), retrieveWallets := [] }

/-- A concrete alternate store, supplied through `WithStore`, that does hold
the payload `[3]` for every name. -/
def altStoreW : Store :=
  { retrieveWallet := fun _ => .ok [3], retrieveWallets := [] }

/-- A concrete store yielding 1025 valid nd payloads: one more than the
enumeration channel's buffer capacity. -/
def storeC9 : Store :=
  { retrieveWallet := fun _ => .error (.external 0),
    retrieveWallets := List.replicate 1025 [3] }

/-! Helper lemmas shared by the claim theorems. -/

theorem resolveVariant_eq_none (s : String) (h1 : s ≠ "nd") (h2 : s ≠ "non-deterministic")
    (h3 : s ≠ "hd") (h4 : s ≠ "hierarchical deterministic") : resolveVariant s = none := by
  unfold resolveVariant
  split <;> simp_all

theorem applyOpts_cons (base : walletOptions) (o : WOption) (opts : List WOption) :
    applyOpts base (o :: opts) = applyOpts (o.apply base) opts := rfl

theorem lastVal_cons {α : Type} (f : WOption → Option α) (o : WOption) (rest : List WOption) :
    lastVal f (o :: rest)
      = match lastVal f rest with
        | some v => some v
        | none => f o := rfl

theorem applyOpts_store (base : walletOptions) (opts : List WOption) :
    (applyOpts base opts).store = (lastVal storeVal opts).getD base.store := by
  induction opts generalizing base with
  | nil => rfl
  | cons o rest ih =>
    rw [applyOpts_cons, ih, lastVal_cons]
    cases hl : lastVal storeVal rest with
    | some v => rfl
    | none => cases o <;> rfl

theorem applyOpts_encryptor (base : walletOptions) (opts : List WOption) :
    (applyOpts base opts).encryptor = (lastVal encryptorVal opts).getD base.encryptor := by
  induction opts generalizing base with
  | nil => rfl
  | cons o rest ih =>
    rw [applyOpts_cons, ih, lastVal_cons]
    cases hl : lastVal encryptorVal rest with
    | some v => rfl
    | none => cases o <;> rfl

theorem applyOpts_passphrase (base : walletOptions) (opts : List WOption) :
    (applyOpts base opts).passphrase = (lastVal passphraseVal opts).getD base.passphrase := by
  induction opts generalizing base with
  | nil => rfl
  | cons o rest ih =>
    rw [applyOpts_cons, ih, lastVal_cons]
    cases hl : lastVal passphraseVal rest with
    | some v => rfl
    | none => cases o <;> rfl

theorem applyOpts_walletType (base : walletOptions) (opts : List WOption) :
    (applyOpts base opts).walletType = (lastVal walletTypeVal opts).getD base.walletType := by
  induction opts generalizing base with
  | nil => rfl
  | cons o rest ih =>
    rw [applyOpts_cons, ih, lastVal_cons]
    cases hl : lastVal walletTypeVal rest with
    | some v => rfl
    | none => cases o <;> rfl

theorem sendAll_succ {W : Type} (ws : List W) (b r : Nat) :
    sendAll ws b (r + 1) = sendAll ws (b + 1) r := by
  induction ws generalizing b r with
  | nil => simp [sendAll]
  | cons w ws ih =>
    cases b with
    | zero => simp [sendAll]
    | succ b => simp [sendAll, ih]

theorem sendAll_zero {W : Type} (ws : List W) (b : Nat) :
    sendAll ws b 0 = decide (ws.length ≤ b) := by
  induction ws generalizing b with
  | nil => simp [sendAll]
  | cons w ws ih =>
    cases b with
    | zero => simp [sendAll]
    | succ b =>
      show sendAll (w :: ws) (b + 1) 0 = decide ((w :: ws).length ≤ b + 1)
      rw [show sendAll (w :: ws) (b + 1) 0 = sendAll ws b 0 from by simp [sendAll], ih]
      rw [decide_eq_decide]
      simp

theorem sendAll_eq {W : Type} (ws : List W) (b r : Nat) :
    sendAll ws b r = decide (ws.length ≤ b + r) := by
  induction r generalizing b with
  | zero => simpa using sendAll_zero ws b
  | succ r ih =>
    rw [sendAll_succ, ih, decide_eq_decide]
    omega

theorem walletsLoop_eq_filterMap {W : Type} (env : Env W) (store : Store)
    (encryptor : Encryptor) (items : List Bytes) :
    walletsLoop env store encryptor items
      = items.filterMap (fun data =>
          match walletFromBytes env store encryptor data with
          | .ok w => some w
          | _ => none) := by
  induction items with
  | nil => rfl
  | cons d rest ih =>
    simp only [walletsLoop, List.filterMap_cons]
    cases h : walletFromBytes env store encryptor d with
    | ok w => simp [h, ih]
    | err e => simp [h, ih]
    | crash s => simp [h, ih]

theorem walletsLoop_replicate {W : Type} (env : Env W) (store : Store) (encryptor : Encryptor)
    (data : Bytes) (w : W) (n : Nat) (h : walletFromBytes env store encryptor data = .ok w) :
    walletsLoop env store encryptor (List.replicate n data) = List.replicate n w := by
  induction n with
  | zero => rfl
  | succ n ih => simp [List.replicate_succ, walletsLoop, h, ih]

theorem walletFromBytes_dispatch {W : Type} (env : Env W) (store : Store) (encryptor : Encryptor)
    (data : Bytes) (info : walletInfo) (h : env.unmarshalInfo data = .ok info) :
    walletFromBytes env store encryptor data
      = (match resolveVariant info.type_ with
        | some v => ofExcept (v.deserializeFn env data store encryptor)
        | none => .err (.msg ("unsupported wallet type \"" ++ info.type_ ++ "\""))) := by
  simp only [walletFromBytes, h]
  by_cases h1 : info.type_ = "nd"
  · rw [h1]; rfl
  by_cases h2 : info.type_ = "non-deterministic"
  · rw [h2]; rfl
  by_cases h3 : info.type_ = "hd"
  · rw [h3]; rfl
  by_cases h4 : info.type_ = "hierarchical deterministic"
  · rw [h4]; rfl
  rw [resolveVariant_eq_none _ h1 h2 h3 h4]
  split <;> simp_all

theorem importWallet_dispatch {W : Type} (env : Env W) (store : Store) (encryptor : Encryptor)
    (blob pass data : Bytes) (w : walletInfo)
    (hdec : env.decrypt blob pass = .ok data)
    (hext : env.unmarshalExt data = .ok (some w)) :
    ImportWallet env store encryptor blob pass
      = (match resolveVariant w.type_ with
        | some v => ofExcept (v.importFn env blob pass store encryptor)
        | none => .err (.msg ("unsupported wallet type \"" ++ w.type_ ++ "\""))) := by
  simp only [ImportWallet, hdec, hext]
  by_cases h1 : w.type_ = "nd"
  · rw [h1]; rfl
  by_cases h2 : w.type_ = "non-deterministic"
  · rw [h2]; rfl
  by_cases h3 : w.type_ = "hd"
  · rw [h3]; rfl
  by_cases h4 : w.type_ = "hierarchical deterministic"
  · rw [h4]; rfl
  rw [resolveVariant_eq_none _ h1 h2 h3 h4]
  split <;> simp_all

theorem createWallet_dispatch {W : Type} (env : Env W) (store : Store) (encryptor : Encryptor)
    (name : String) (opts : List WOption) :
    CreateWallet env store encryptor name opts
      = (match resolveVariant (createOptions store encryptor opts).walletType with
        | some v => ofExcept (v.createFn env name (createOptions store encryptor opts).passphrase
            (createOptions store encryptor opts).store (createOptions store encryptor opts).encryptor)
        | none => .err (.msg ("unhandled wallet type \""
            ++ (createOptions store encryptor opts).walletType ++ "\""))) := by
  simp only [CreateWallet]
  by_cases h1 : (createOptions store encryptor opts).walletType = "nd"
  · rw [h1]; rfl
  by_cases h2 : (createOptions store encryptor opts).walletType = "non-deterministic"
  · rw [h2]; rfl
  by_cases h3 : (createOptions store encryptor opts).walletType = "hd"
  · rw [h3]; rfl
  by_cases h4 : (createOptions store encryptor opts).walletType = "hierarchical deterministic"
  · rw [h4]; rfl
  rw [resolveVariant_eq_none _ h1 h2 h3 h4]
  split <;> simp_all

theorem createOptions_pass_cons (store : Store) (encryptor : Encryptor) (p : Bytes)
    (opts : List WOption) :
    (createOptions store encryptor (WOption.WithPassphrase p :: opts)).walletType
        = (createOptions store encryptor opts).walletType
      ∧ (createOptions store encryptor (WOption.WithPassphrase p :: opts)).store
        = (createOptions store encryptor opts).store
      ∧ (createOptions store encryptor (WOption.WithPassphrase p :: opts)).encryptor
        = (createOptions store encryptor opts).encryptor := by
  refine ⟨?_, ?_, ?_⟩
  · simp only [createOptions, applyOpts_cons, applyOpts_walletType]
    rfl
  · simp only [createOptions, applyOpts_cons, applyOpts_store]
    rfl
  · simp only [createOptions, applyOpts_cons, applyOpts_encryptor]
    rfl

theorem ofExcept_ok_or_err {α : Type} (x : Except GoError α) :
    (∃ a, ofExcept x = .ok a) ∨ (∃ e, ofExcept x = .err e) := by
  cases x with
  | ok a => exact Or.inl ⟨a, rfl⟩
  | error e => exact Or.inr ⟨e, rfl⟩

/-! Claim theorems. -/

/-- Claim C2: the enumeration produced by `Wallets` consists of exactly the
store-yielded payloads that deserialize successfully through
`walletFromBytes`, in the store's yield order; failing payloads are skipped
without any error reaching the consumer, and the producer terminates once
the store's (finite) sequence is exhausted and the consumer reads all
yielded wallets. -/
theorem wallets_enumerates_valid_payloads_in_order {W : Type} (env : Env W) (store : Store)
    (encryptor : Encryptor) :
    Wallets env store encryptor
        = store.retrieveWallets.filterMap (fun data =>
            match walletFromBytes env store encryptor data with
            | .ok w => some w
            | _ => none)
      ∧ producerTerminates env store encryptor (Wallets env store encryptor).length = true := by
  constructor
  · exact walletsLoop_eq_filterMap env store encryptor store.retrieveWallets
  · rw [producerTerminates, sendAll_eq]
    simp

/-- Claim C8: each of the four options mutates exactly one field of the
effective options (the record updates), and folding a sequence of options
with `applyOpts` gives each field the value written by the last option in
the sequence that targets it, falling back to the base configuration
(last-write-wins). -/
theorem option_mutation_last_write_wins (base : walletOptions) (opts : List WOption)
    (s : Store) (e : Encryptor) (p : Bytes) (t : String) :
    (WOption.apply (.WithStore s) base = { base with store := s })
      ∧ (WOption.apply (.WithEncryptor e) base = { base with encryptor := e })
      ∧ (WOption.apply (.WithPassphrase p) base = { base with passphrase := p })
      ∧ (WOption.apply (.WithType t) base = { base with walletType := t })
      ∧ (applyOpts base opts).store = (lastVal storeVal opts).getD base.store
      ∧ (applyOpts base opts).encryptor = (lastVal encryptorVal opts).getD base.encryptor
      ∧ (applyOpts base opts).passphrase = (lastVal passphraseVal opts).getD base.passphrase
      ∧ (applyOpts base opts).walletType = (lastVal walletTypeVal opts).getD base.walletType :=
  ⟨rfl, rfl, rfl, rfl, applyOpts_store base opts, applyOpts_encryptor base opts,
    applyOpts_passphrase base opts, applyOpts_walletType base opts⟩

/-- Claim C1 (code bug): `OpenWallet` resolves the caller's options but then
ignores them.  With the process-wide default store lacking wallet "w" and a
`WithStore` option supplying a store that holds a deserializable payload for
"w", the call still fails with the default store's error, even though
retrieving and deserializing through the option-resolved store would
succeed. -/
theorem openWallet_ignores_option_store :
    OpenWallet envW defaultStoreW encW "w" [WOption.WithStore altStoreW]
        = .err (.external 7)
      ∧ altStoreW.retrieveWallet "w" = .ok [3]
      ∧ walletFromBytes envW altStoreW encW [3] = .ok 5 :=
  ⟨rfl, rfl, rfl⟩

/-- Claim C5 (code bug): `ImportWallet` propagates a decryption failure
verbatim and returns a distinct error when the plaintext is not valid JSON,
but when the plaintext parses as JSON without a `wallet` field, the nil
envelope pointer is dereferenced and the call panics instead of returning. -/
theorem importWallet_nil_envelope_panics :
    ImportWallet envW storeW encW [0] [] = .err (.external 10)
      ∧ ImportWallet envW storeW encW [1] [] = .err (.external 11)
      ∧ GoError.external 11 ≠ GoError.external 10
      ∧ ImportWallet envW storeW encW [2] []
          = .crash "invalid memory address or nil pointer dereference" :=
  ⟨rfl, rfl, by decide, rfl⟩

/-- Claim C9 counterexample: with a store yielding 1025 valid wallets and a
consumer that abandons the channel having read nothing, the producer
goroutine of `Wallets` does not terminate: its 1025th send finds the
1024-slot buffer full with no receive ever coming. -/
theorem wallets_producer_blocks_on_abandonment :
    producerTerminates envW storeC9 encW 0 = false := by
  have hw : Wallets envW storeC9 encW = List.replicate 1025 5 := by
    rw [Wallets, show storeC9.retrieveWallets = List.replicate 1025 [3] from rfl]
    exact walletsLoop_replicate envW storeC9 encW [3] 5 1025 rfl
  rw [producerTerminates, hw, sendAll_eq]
  simp only [List.length_replicate]
  decide

/-- Claim C9 amended: the producer goroutine terminates exactly when the
number of successfully deserialized wallets fits into what the consumer
reads plus the 1024-slot channel buffer; beyond that bound the producer is
left blocked forever on a send, since the code observes no done-signal. -/
theorem wallets_producer_termination_iff {W : Type} (env : Env W) (store : Store)
    (encryptor : Encryptor) (consumed : Nat) :
    producerTerminates env store encryptor consumed = true
      ↔ (Wallets env store encryptor).length ≤ consumed + 1024 := by
  rw [producerTerminates, sendAll_eq, decide_eq_true_iff]
  omega

/-- Claim C3: for every tag string `t`, the variant selected by
`CreateWallet`'s dispatch, `ImportWallet`'s dispatch and the shared
deserialization path `walletFromBytes` is the one given by the single tag
table `resolveVariant`; in particular "nd" and "non-deterministic" resolve
to the ND variant and "hd" and "hierarchical deterministic" to the HD
variant, in all three places. -/
theorem dispatch_consistent_across_call_sites {W : Type} (t : String) (env : Env W)
    (store : Store) (encryptor : Encryptor) (name : String)
    (blob pass data ptext : Bytes) (info einfo : walletInfo) (opts : List WOption)
    (hinfo : env.unmarshalInfo data = .ok info) (hit : info.type_ = t)
    (hdec : env.decrypt blob pass = .ok ptext)
    (hext : env.unmarshalExt ptext = .ok (some einfo)) (het : einfo.type_ = t)
    (hopts : (createOptions store encryptor opts).walletType = t) :
    (walletFromBytes env store encryptor data
        = (match resolveVariant t with
          | some v => ofExcept (v.deserializeFn env data store encryptor)
          | none => .err (.msg ("unsupported wallet type \"" ++ t ++ "\""))))
      ∧ (ImportWallet env store encryptor blob pass
        = (match resolveVariant t with
          | some v => ofExcept (v.importFn env blob pass store encryptor)
          | none => .err (.msg ("unsupported wallet type \"" ++ t ++ "\""))))
      ∧ (CreateWallet env store encryptor name opts
        = (match resolveVariant t with
          | some v => ofExcept (v.createFn env name
              (createOptions store encryptor opts).passphrase
              (createOptions store encryptor opts).store
              (createOptions store encryptor opts).encryptor)
          | none => .err (.msg ("unhandled wallet type \"" ++ t ++ "\""))))
      ∧ resolveVariant "nd" = some .ND ∧ resolveVariant "non-deterministic" = some .ND
      ∧ resolveVariant "hd" = some .HD
      ∧ resolveVariant "hierarchical deterministic" = some .HD := by
  refine ⟨?_, ?_, ?_, rfl, rfl, rfl, rfl⟩
  · have h := walletFromBytes_dispatch env store encryptor data info hinfo
    rw [hit] at h
    exact h
  · have h := importWallet_dispatch env store encryptor blob pass ptext einfo hdec hext
    rw [het] at h
    exact h
  · have h := createWallet_dispatch env store encryptor name opts
    rw [hopts] at h
    exact h

/-- Witness for C3: with a concrete environment and the tag "nd", all three
call sites select the ND variant. -/
theorem dispatch_consistent_across_call_sites_witness :
    envW.unmarshalInfo [3] = .ok (infoOf "nd")
      ∧ walletFromBytes envW storeW encW [3] = GoResult.ok 5
      ∧ ImportWallet envW storeW encW [3] [] = GoResult.ok 1
      ∧ CreateWallet envW storeW encW "n" [] = GoResult.ok 3 := by
  have h := dispatch_consistent_across_call_sites "nd" envW storeW encW "n"
    [3] [] [3] [3] (infoOf "nd") (infoOf "nd") [] rfl rfl rfl rfl rfl rfl
  exact ⟨rfl, h.1.trans rfl, h.2.1.trans rfl, h.2.2.1.trans rfl⟩

/-- Claim C4: for every tag outside the registered table, `CreateWallet`,
`ImportWallet` and the shared deserialization path return no wallet but an
error, and each error message carries the offending tag verbatim. -/
theorem unregistered_tag_rejected_with_tag {W : Type} (t : String) (env : Env W)
    (store : Store) (encryptor : Encryptor) (name : String)
    (blob pass data ptext : Bytes) (info einfo : walletInfo) (opts : List WOption)
    (hnone : resolveVariant t = none)
    (hinfo : env.unmarshalInfo data = .ok info) (hit : info.type_ = t)
    (hdec : env.decrypt blob pass = .ok ptext)
    (hext : env.unmarshalExt ptext = .ok (some einfo)) (het : einfo.type_ = t)
    (hopts : (createOptions store encryptor opts).walletType = t) :
    walletFromBytes env store encryptor data
        = .err (.msg ("unsupported wallet type \"" ++ t ++ "\""))
      ∧ ImportWallet env store encryptor blob pass
        = .err (.msg ("unsupported wallet type \"" ++ t ++ "\""))
      ∧ CreateWallet env store encryptor name opts
        = .err (.msg ("unhandled wallet type \"" ++ t ++ "\""))
      ∧ carriesTag (.msg ("unsupported wallet type \"" ++ t ++ "\"")) t
      ∧ carriesTag (.msg ("unhandled wallet type \"" ++ t ++ "\"")) t := by
  refine ⟨?_, ?_, ?_, ⟨"unsupported wallet type \"", "\"", rfl⟩,
    ⟨"unhandled wallet type \"", "\"", rfl⟩⟩
  · have h := walletFromBytes_dispatch env store encryptor data info hinfo
    rw [hit, hnone] at h
    exact h
  · have h := importWallet_dispatch env store encryptor blob pass ptext einfo hdec hext
    rw [het, hnone] at h
    exact h
  · have h := createWallet_dispatch env store encryptor name opts
    rw [hopts, hnone] at h
    exact h

/-- Witness for C4: the unregistered tag "keystore" is rejected by all three
call sites with an error message carrying it. -/
theorem unregistered_tag_rejected_with_tag_witness :
    resolveVariant "keystore" = none
      ∧ walletFromBytes envW storeW encW [5]
          = GoResult.err (.msg "unsupported wallet type \"keystore\"")
      ∧ ImportWallet envW storeW encW [5] []
          = GoResult.err (.msg "unsupported wallet type \"keystore\"")
      ∧ CreateWallet envW storeW encW "n" [WOption.WithType "keystore"]
          = GoResult.err (.msg "unhandled wallet type \"keystore\"") := by
  have h := unregistered_tag_rejected_with_tag "keystore" envW storeW encW "n"
    [5] [] [5] [5] (infoOf "keystore") (infoOf "keystore") [WOption.WithType "keystore"]
    rfl rfl rfl rfl rfl rfl rfl
  exact ⟨rfl, h.1.trans rfl, h.2.1.trans rfl, h.2.2.1.trans rfl⟩

/-- Claim C6: whenever decryption succeeds, the plaintext parses to an
envelope with a non-nil `wallet` field, and the envelope's type is a
registered tag, `ImportWallet` invokes the matching variant's Import routine
with the original encrypted blob and the original passphrase (plus store and
encryptor) and returns its result verbatim. -/
theorem importWallet_forwards_original_blob {W : Type} (env : Env W) (store : Store)
    (encryptor : Encryptor) (blob pass data : Bytes) (w : walletInfo) (v : Variant)
    (hdec : env.decrypt blob pass = .ok data)
    (hext : env.unmarshalExt data = .ok (some w))
    (hv : resolveVariant w.type_ = some v) :
    ImportWallet env store encryptor blob pass
      = ofExcept (v.importFn env blob pass store encryptor) := by
  have h := importWallet_dispatch env store encryptor blob pass data w hdec hext
  rw [hv] at h
  exact h

/-- Witness for C6: a concrete import whose envelope carries the export
spelling "hierarchical deterministic" is routed to the HD Import routine and
its result is returned verbatim. -/
theorem importWallet_forwards_original_blob_witness :
    envW.decrypt [4] [] = .ok [4]
      ∧ resolveVariant (infoOf "hierarchical deterministic").type_ = some Variant.HD
      ∧ ImportWallet envW storeW encW [4] [] = GoResult.ok 2 := by
  have h := importWallet_forwards_original_blob envW storeW encW [4] [] [4]
    (infoOf "hierarchical deterministic") Variant.HD rfl rfl rfl
  exact ⟨rfl, rfl, h.trans rfl⟩

/-- Claim C7: with no options, `CreateWallet`'s effective options default to
wallet type "nd" and an empty passphrase; when the effective type resolves
to HD the effective passphrase is forwarded together with the effective
store and encryptor; when it resolves to ND only the effective store and
encryptor are forwarded, and a supplied passphrase does not change the
outcome. -/
theorem createWallet_defaults_and_variant_forwarding {W : Type} (env : Env W)
    (store : Store) (encryptor : Encryptor) (name : String) (opts : List WOption)
    (p : Bytes) :
    ((createOptions store encryptor []).walletType = "nd"
        ∧ (createOptions store encryptor []).passphrase = [])
      ∧ (resolveVariant (createOptions store encryptor opts).walletType = some .HD →
          CreateWallet env store encryptor name opts
            = ofExcept (env.hdCreateWallet name
                (createOptions store encryptor opts).passphrase
                (createOptions store encryptor opts).store
                (createOptions store encryptor opts).encryptor))
      ∧ (resolveVariant (createOptions store encryptor opts).walletType = some .ND →
          CreateWallet env store encryptor name opts
              = ofExcept (env.ndCreateWallet name
                  (createOptions store encryptor opts).store
                  (createOptions store encryptor opts).encryptor)
            ∧ CreateWallet env store encryptor name (WOption.WithPassphrase p :: opts)
              = CreateWallet env store encryptor name opts) := by
  refine ⟨⟨rfl, rfl⟩, ?_, ?_⟩
  · intro h
    have hd := createWallet_dispatch env store encryptor name opts
    rw [h] at hd
    exact hd
  · intro h
    have hd := createWallet_dispatch env store encryptor name opts
    rw [h] at hd
    refine ⟨hd, ?_⟩
    have hd2 := createWallet_dispatch env store encryptor name
      (WOption.WithPassphrase p :: opts)
    obtain ⟨hw, hs, he⟩ := createOptions_pass_cons store encryptor p opts
    rw [hw, h, hs, he] at hd2
    rw [hd2, hd]
    rfl

/-- Witness for C7: creating with type "hd" forwards the supplied passphrase
(the hd stub records its length); creating with no options takes the nd
default; and an nd create ignores a supplied passphrase. -/
theorem createWallet_defaults_and_variant_forwarding_witness :
    CreateWallet envW storeW encW "n" [WOption.WithType "hd", WOption.WithPassphrase [7]]
        = GoResult.ok 101
      ∧ CreateWallet envW storeW encW "n" [] = GoResult.ok 3
      ∧ CreateWallet envW storeW encW "n" [WOption.WithPassphrase [9]]
        = CreateWallet envW storeW encW "n" [] := by
  refine ⟨?_, ?_, ?_⟩
  · have h := (createWallet_defaults_and_variant_forwarding envW storeW encW "n"
      [WOption.WithType "hd", WOption.WithPassphrase [7]] []).2.1 rfl
    exact h.trans rfl
  · have h := ((createWallet_defaults_and_variant_forwarding envW storeW encW "n"
      [] []).2.2 rfl).1
    exact h.trans rfl
  · exact ((createWallet_defaults_and_variant_forwarding envW storeW encW "n"
      [] [9]).2.2 rfl).2

/-- Claim C10: the shared deserialization path is total: for every byte
input it returns either a wallet or an error and never panics; a payload
whose envelope lacks a type field (Go zero value, the empty tag) is rejected
as the unsupported wallet type `""`; consequently `OpenWallet` returns a
wallet or an error, and the enumeration loop skips such payloads. -/
theorem walletFromBytes_total_no_panic {W : Type} (env : Env W) (store : Store)
    (encryptor : Encryptor) (data : Bytes) (name : String) (opts : List WOption)
    (info : walletInfo) (e' : GoError) (rest : List Bytes) :
    ((∃ w, walletFromBytes env store encryptor data = .ok w)
        ∨ (∃ e, walletFromBytes env store encryptor data = .err e))
      ∧ ((∃ w, OpenWallet env store encryptor name opts = .ok w)
        ∨ (∃ e, OpenWallet env store encryptor name opts = .err e))
      ∧ (env.unmarshalInfo data = .ok info → info.type_ = "" →
          walletFromBytes env store encryptor data
            = .err (.msg "unsupported wallet type \"\""))
      ∧ (walletFromBytes env store encryptor data = .err e' →
          walletsLoop env store encryptor (data :: rest)
            = walletsLoop env store encryptor rest) := by
  have hbody : ∀ d : Bytes, (∃ w, walletFromBytes env store encryptor d = .ok w)
      ∨ (∃ e, walletFromBytes env store encryptor d = .err e) := by
    intro d
    cases hinfo : env.unmarshalInfo d with
    | error e => exact Or.inr ⟨e, by simp [walletFromBytes, hinfo]⟩
    | ok i =>
      have h := walletFromBytes_dispatch env store encryptor d i hinfo
      cases hv : resolveVariant i.type_ with
      | none =>
        rw [hv] at h
        exact Or.inr ⟨_, h⟩
      | some v =>
        rw [hv] at h
        rcases ofExcept_ok_or_err (v.deserializeFn env d store encryptor) with ⟨w, hw⟩ | ⟨e, he⟩
        · exact Or.inl ⟨w, h.trans hw⟩
        · exact Or.inr ⟨e, h.trans he⟩
  refine ⟨hbody data, ?_, ?_, ?_⟩
  · cases hr : store.retrieveWallet name with
    | error e => exact Or.inr ⟨e, by simp [OpenWallet, hr]⟩
    | ok d =>
      rcases hbody d with ⟨w, hw⟩ | ⟨e, he⟩
      · exact Or.inl ⟨w, by simp [OpenWallet, hr, hw]⟩
      · exact Or.inr ⟨e, by simp [OpenWallet, hr, he]⟩
  · intro hinfo htype
    have h := walletFromBytes_dispatch env store encryptor data info hinfo
    rw [htype] at h
    exact h.trans rfl
  · intro herr
    simp [walletsLoop, herr]

/-- Witness for C10: a payload whose envelope has no type field is rejected
with the empty-tag error, and the enumeration loop skips it. -/
theorem walletFromBytes_total_no_panic_witness :
    walletFromBytes envW storeW encW [6]
        = GoResult.err (.msg "unsupported wallet type \"\"")
      ∧ walletsLoop envW storeW encW [[6]] = [] := by
  have h := walletFromBytes_total_no_panic envW storeW encW [6] "n" [] (infoOf "")
    (.msg "unsupported wallet type \"\"") []
  have h3 := h.2.2.1 rfl rfl
  exact ⟨h3, (h.2.2.2 h3).trans rfl⟩
